import Mathlib

/-!
Shallow embedding of the analysis core of `jastm.py` (Series Loader,
Statistics Engine, Single-Run Reporter, Aggregator).

Conventions of the embedding:
* Python floats are modelled as exact rationals (`ℚ`); every quantity the
  claims compare is far from a representation tie, so the comparisons agree.
* A CSV file after Python's `csv.reader` is a `List (List Field)`: a list of
  rows, each row a list of fields.  A `Field` records how the underlying text
  behaves under the two parsers the code applies to it:
  `datetime.fromisoformat` (absolute timestamp, modelled as rational seconds)
  and `float`.  A field for which a parse raises `ValueError` is modelled by
  `none` in the corresponding component.
* A missing file (`os.path.exists` false) is modelled by passing `none`
  instead of `some rows`.
-/

namespace Jastm

/-- One field of a CSV row: the outcome of trying to parse its text as an
ISO timestamp (`datetime.fromisoformat`, in absolute seconds) and as a
`float`.  `none` models a `ValueError`. -/
structure Field where
  asTimestamp : Option ℚ
  asFloat : Option ℚ
deriving Repr, DecidableEq

/-- One retained data point: `(elapsed_seconds, cpu_percent, memory_available_mb)`,
the triple appended to the analyzer's three parallel lists. -/
structure Sample where
  elapsed : ℚ
  cpu : ℚ
  mem : ℚ
deriving Repr, DecidableEq

/-- The loader's failure modes (`load_data` returning `False` after printing
the corresponding diagnostic). -/
inductive LoadError where
  | fileNotFound
  | emptyFile
  | noValidData
deriving Repr, DecidableEq

/-- The parse of one data row (`jastm.py` lines 808-831): a row with fewer
than 3 fields is skipped; otherwise field 0 must parse as a timestamp and
fields 1,2 as floats, any `ValueError` skipping the row.  Extra fields are
ignored. -/
def parseRow : List Field → Option (ℚ × ℚ × ℚ)
  | f0 :: f1 :: f2 :: _ =>
    match f0.asTimestamp, f1.asFloat, f2.asFloat with
    | some t, some c, some m => some (t, c, m)
    | _, _, _ => none
  | _ => none

/-- Scan the data rows for the first row that parses; it fixes the reference
start time (`start_time_val` / `self.start_datetime`), its own elapsed time
being 0; every later parsed row `(t, c, m)` contributes the sample
`(t - t₀, c, m)`.  Returns `none` when no row parses. -/
def parseDataRows : List (List Field) → Option (ℚ × List Sample)
  | [] => none
  | row :: rest =>
    match parseRow row with
    | none => parseDataRows rest
    | some (t0, c, m) =>
      some (t0, ⟨0, c, m⟩ ::
        (rest.filterMap parseRow).map (fun p => ⟨p.1 - t0, p.2.1, p.2.2⟩))

/-- `sum(xs) / len(xs)` guarded by emptiness, as in lines 839-847. -/
def mean (xs : List ℚ) : ℚ :=
  if xs.isEmpty then 0 else xs.sum / xs.length

/-- The peak-identification loop (lines 859-868): one pass over the samples,
appending `(t, c, m)` to the CPU-peak list when `c > cpu_threshold` and to
the memory-peak list when `m < mem_threshold`. -/
def detectPeaks (cpuThr memThr : ℚ) : List Sample → List Sample × List Sample
  | [] => ([], [])
  | s :: rest =>
    let p := detectPeaks cpuThr memThr rest
    ((if cpuThr < s.cpu then s :: p.1 else p.1),
     (if s.mem < memThr then s :: p.2 else p.2))

/-- The state a successful `load_data` leaves on the `DataAnalyzer`:
reference start time, the parallel data lists (kept here as one list of
triples, appended in lockstep), the precomputed statistics and both peak
lists. -/
structure Analyzer where
  start_datetime : ℚ
  samples : List Sample
  avg_cpu : ℚ
  avg_mem : ℚ
  duration_seconds : ℚ
  cpu_peaks : List Sample
  memory_peaks : List Sample
deriving Repr, DecidableEq

/-- The `timestamps` list of the analyzer. -/
def Analyzer.timestamps (a : Analyzer) : List ℚ := a.samples.map Sample.elapsed

/-- The `cpu_data` list of the analyzer. -/
def Analyzer.cpu_data (a : Analyzer) : List ℚ := a.samples.map Sample.cpu

/-- The `memory_data` list of the analyzer. -/
def Analyzer.memory_data (a : Analyzer) : List ℚ := a.samples.map Sample.mem

/-- The statistics precomputation of `load_data` (lines 837-868), applied to
the reference start time and samples the parse produced: averages, duration,
the two thresholds and the two peak lists. -/
def mkAnalyzer (cpu_peak_criteria ram_peak_criteria : ℚ)
    (t0 : ℚ) (samples : List Sample) : Analyzer :=
  let timestamps := samples.map Sample.elapsed
  let avg_cpu := mean (samples.map Sample.cpu)
  let avg_mem := mean (samples.map Sample.mem)
  let cpu_threshold := avg_cpu * (1 + cpu_peak_criteria)
  let mem_threshold := avg_mem * (1 - ram_peak_criteria)
  let peaks := detectPeaks cpu_threshold mem_threshold samples
  { start_datetime := t0
    samples := samples
    avg_cpu := avg_cpu
    avg_mem := avg_mem
    duration_seconds := timestamps.getLastD 0 - timestamps.headD 0
    cpu_peaks := peaks.1
    memory_peaks := peaks.2 }

/-- `DataAnalyzer.load_data` (lines 787-878).  `file = none` models a path
for which `os.path.exists` is false; otherwise `file = some rows` is the
parsed CSV content.  `next(reader, None)` consumes the first row
unconditionally as the header; a missing or empty first row
(`if not header`) is the empty-file error.  The remaining rows are parsed by
`parseDataRows`; zero surviving rows is the no-valid-data error.  On success
the statistics and the two peak lists are precomputed by `mkAnalyzer`. -/
def load_data (cpu_peak_criteria ram_peak_criteria : ℚ)
    (file : Option (List (List Field))) : Except LoadError Analyzer :=
  match file with
  | none => .error .fileNotFound
  | some [] => .error .emptyFile
  | some (header :: dataRows) =>
    if header.isEmpty then .error .emptyFile
    else
      match parseDataRows dataRows with
      | none => .error .noValidData
      | some (t0, samples) =>
        .ok (mkAnalyzer cpu_peak_criteria ram_peak_criteria t0 samples)

/-! ### Machine-id inference (`_infer_machine_id_from_path`, lines 1268-1278)

The code runs `re.search(r'\b(\d{4})\b', basename)`.  We model the regex
search directly on the character list: the leftmost position holding four
digits whose neighbours (when present) are not word characters.  Word
characters are `[A-Za-z0-9_]` (ASCII paths). -/

/-- Python `\w` on ASCII text: letters, digits and the underscore. -/
def isWordChar (c : Char) : Bool := c.isAlphanum || c = '_'

/-- A `\b` word boundary next to a digit holds exactly when the neighbouring
character is absent (string edge) or not a word character. -/
def boundaryOk : Option Char → Bool
  | none => true
  | some c => !isWordChar c

/-- If the list starts with four digits, return them and the following
character (the lookahead for the trailing `\b`). -/
def fourDigitsAt : List Char → Option (List Char × Option Char)
  | a :: b :: c :: d :: rest =>
    if a.isDigit && b.isDigit && c.isDigit && d.isDigit then
      some ([a, b, c, d], rest.head?)
    else none
  | _ => none

/-- Leftmost match of `\b(\d{4})\b`: scan positions left to right, keeping
the previous character for the leading boundary test. -/
def searchFourDigit : Option Char → List Char → Option (List Char)
  | _, [] => none
  | prev, c :: rest =>
    match fourDigitsAt (c :: rest) with
    | some (tok, nxt) =>
      if boundaryOk prev && boundaryOk nxt then some tok
      else searchFourDigit (some c) rest
    | none => searchFourDigit (some c) rest

/-- `os.path.basename` on POSIX paths: the part after the last slash. -/
def basename (p : String) : String :=
  String.mk ((p.data.reverse.takeWhile (fun c => c ≠ '/')).reverse)

/-- `_infer_machine_id_from_path`: the regex match on the basename when one
exists, the caller-supplied default otherwise. -/
def infer_machine_id_from_path (path default_machine_id : String) : String :=
  match searchFourDigit none (basename path).data with
  | some tok => String.mk tok
  | none => default_machine_id

/-! ### Number and duration formatting -/

/-- Round to the nearest integer, ties to the even integer (the rounding of
Python's fixed-point float formatting). -/
def roundHalfEven (q : ℚ) : ℤ :=
  if q - ⌊q⌋ < 1/2 then ⌊q⌋
  else if (1:ℚ)/2 < q - ⌊q⌋ then ⌊q⌋ + 1
  else if ⌊q⌋ % 2 = 0 then ⌊q⌋ else ⌊q⌋ + 1

/-- Two-digit zero-padded rendering of a value below 100. -/
def pad2 (n : ℕ) : String := if n < 10 then "0" ++ toString n else toString n

/-- Python `f"{x:.2f}"` on the exact rational value (a negative value that
rounds to zero keeps its sign, as `"-0.00"`). -/
def fmt2 (q : ℚ) : String :=
  let n := roundHalfEven (q * 100)
  (if n < 0 ∨ (n = 0 ∧ q < 0) then "-" else "") ++
    toString (n.natAbs / 100) ++ "." ++ pad2 (n.natAbs % 100)

/-- Python `f"{x:.0f}"` on the exact rational value. -/
def fmt0 (q : ℚ) : String :=
  let n := roundHalfEven q
  (if n < 0 ∨ (n = 0 ∧ q < 0) then "-" else "") ++ toString n.natAbs

/-- Python `int()`: truncation toward zero. -/
def truncToInt (q : ℚ) : ℤ := Int.tdiv q.num q.den

/-- `_format_duration_days_hours` (lines 1281-1287): whole days and hours as
`"Xd Yh"`.  Python `//` is floor division (`Int.fdiv`) and `%` with a
positive modulus yields a value in `[0, m)` (`Int.emod`). -/
def format_duration_days_hours (duration_seconds : ℚ) : String :=
  let total := truncToInt duration_seconds
  let days := Int.fdiv total 86400
  let remaining := Int.emod total 86400
  let hours := Int.fdiv remaining 3600
  toString days ++ "d " ++ toString hours ++ "h"

/-! ### Single-run reporter (`show_summary`, lines 880-927)

`strf` models `(self.start_datetime + timedelta(seconds=t)).strftime(...)`:
it renders an absolute time (rational seconds) as the display string
`"%Y-%m-%d %H:%M:%S"`.  The report is the list of printed lines, each
element one `print` call (embedded `\n` kept where the source has one). -/

/-- `min(xs)` guarded by `if xs ... else 0.0` as in lines 885-888. -/
def listMin : List ℚ → ℚ
  | [] => 0
  | x :: rest => rest.foldl min x

/-- `max(xs)` guarded by `if xs ... else 0.0` as in lines 885-888. -/
def listMax : List ℚ → ℚ
  | [] => 0
  | x :: rest => rest.foldl max x

/-- One peak table of the summary report: the empty-state message when there
are no peaks, otherwise the two markdown header lines followed by one row
per peak. -/
def peakTable (strf : ℚ → String) (start : ℚ) (emptyMsg : String)
    (peaks : List Sample) : List String :=
  if peaks.isEmpty then [emptyMsg]
  else "| Timestamp | CPU (%) | Memory (MB) |" :: "| :--- | :--- | :--- |" ::
    peaks.map (fun s =>
      "| " ++ strf (start + s.elapsed) ++ " | " ++ fmt2 s.cpu ++ "% | " ++
        fmt2 s.mem ++ " |")

/-- The lines printed by `show_summary`, in order. -/
def show_summary_lines (strf : ℚ → String)
    (cpu_peak_criteria ram_peak_criteria : ℚ) (a : Analyzer) : List String :=
  let hours := a.duration_seconds / 3600
  let days := hours / 24
  ["\n=== Summary Report ===",
   "Duration: " ++ fmt2 hours ++ " hours = " ++ fmt2 days ++ " days"] ++
  (if a.timestamps.isEmpty then []
   else ["Time Period: " ++ strf (a.start_datetime + a.timestamps.headD 0) ++
         " ~ " ++ strf (a.start_datetime + a.timestamps.getLastD 0)]) ++
  ["CPU Stats: Avg=" ++ fmt2 a.avg_cpu ++ "% | Min=" ++
     fmt2 (listMin a.cpu_data) ++ "% | Max=" ++ fmt2 (listMax a.cpu_data) ++ "%",
   "Memory Stats: Avg=" ++ fmt2 a.avg_mem ++ " MB | Min=" ++
     fmt2 (listMin a.memory_data) ++ " MB | Max=" ++ fmt2 (listMax a.memory_data) ++ " MB",
   "\n### Peaks Report (CPU > " ++ fmt0 (cpu_peak_criteria * 100) ++
     "%, RAM < " ++ fmt0 (ram_peak_criteria * 100) ++ "% deviation)",
   "\n#### CPU Peaks (> " ++ fmt2 (a.avg_cpu * (1 + cpu_peak_criteria)) ++ "%)"] ++
  peakTable strf a.start_datetime "No cpu peaks detected." a.cpu_peaks ++
  ["\n#### Memory Peaks (< " ++ fmt2 (a.avg_mem * (1 - ram_peak_criteria)) ++ " MB)"] ++
  peakTable strf a.start_datetime "No memory peaks detected." a.memory_peaks ++
  ["======================\n"]

/-! ### Aggregator (`aggregate_summaries`, lines 1290-1354) -/

/-- One row of the aggregate table.  `start_time` holds the absolute start
instant in rational seconds; the code stores and sorts its strftime
rendering, whose lexicographic order agrees with the numeric order for
second-precision timestamps with four-digit years. -/
structure AggregateRow where
  machine_id : String
  start_time : ℚ
  duration : String
  cpu_avg : ℚ
  cpu_peak_count : ℕ
  mem_avg : ℚ
  mem_peak_count : ℕ
  flags : String
  source : String
deriving Repr, DecidableEq

/-- The aggregate row built from one path, `none` when `load_data` fails
(the path is then skipped with a warning).  Mirrors the loop body of
`aggregate_summaries` lines 1298-1336. -/
def rowOf (fs : String → Option (List (List Field)))
    (cpu_peak_criteria ram_peak_criteria : ℚ) (default_machine_id : String)
    (path : String) : Option AggregateRow :=
  match load_data cpu_peak_criteria ram_peak_criteria (fs path) with
  | .error _ => none
  | .ok a =>
    some
      { machine_id := infer_machine_id_from_path path default_machine_id
        -- `start_datetime + timedelta(timestamps[0])` when samples exist,
        -- bare `start_datetime` otherwise; `headD 0` renders both cases.
        start_time := a.start_datetime + a.timestamps.headD 0
        duration := format_duration_days_hours a.duration_seconds
        cpu_avg := a.avg_cpu
        cpu_peak_count := a.cpu_peaks.length
        mem_avg := a.avg_mem
        mem_peak_count := a.memory_peaks.length
        flags := String.intercalate ","
          ((if 0 < a.cpu_peaks.length then ["CPU_PEAKS"] else []) ++
           (if 0 < a.memory_peaks.length then ["MEM_PEAKS"] else []))
        source := path }

/-- The sort key of line 1343: the tuple
`(machine_id, start_time, source)` under lexicographic order. -/
def rowKey (x : AggregateRow) : Lex (String × Lex (ℚ × String)) :=
  toLex (x.machine_id, toLex (x.start_time, x.source))

/-- Non-strict comparison of rows by their sort key. -/
def rowKeyLe (x y : AggregateRow) : Bool := decide (rowKey x ≤ rowKey y)

/-- The loop of `aggregate_summaries`: the rows of the successfully loaded
paths in input order, and the warnings for the skipped ones. -/
def aggLoop (fs : String → Option (List (List Field)))
    (cpu_peak_criteria ram_peak_criteria : ℚ) (default_machine_id : String) :
    List String → List AggregateRow × List String
  | [] => ([], [])
  | path :: rest =>
    let p := aggLoop fs cpu_peak_criteria ram_peak_criteria default_machine_id rest
    match rowOf fs cpu_peak_criteria ram_peak_criteria default_machine_id path with
    | none => (p.1, ("Warning: Skipping file due to load error: " ++ path) :: p.2)
    | some row => (row :: p.1, p.2)

/-- The table's header line (line 1346). -/
def aggHeaderLine : String :=
  "| machine_id | start_time | duration(days and hours) | cpu_avg_% | cpu_peak_count | mem_avg | mem_peak_count | flags |"

/-- One rendered data row (lines 1349-1353). -/
def renderAggRow (strf : ℚ → String) (r : AggregateRow) : String :=
  "| " ++ r.machine_id ++ " | " ++ strf r.start_time ++ " | " ++ r.duration ++
    " | " ++ fmt2 r.cpu_avg ++ " | " ++ toString r.cpu_peak_count ++ " | " ++
    fmt2 r.mem_avg ++ " | " ++ toString r.mem_peak_count ++ " | " ++ r.flags ++ " |"

/-- The combined observable outcome of an analysis-mode invocation:
`sys.exit` status, stdout lines and stderr lines. -/
structure RunOutput where
  exitCode : ℕ
  stdout : List String
  stderr : List String
deriving Repr, DecidableEq

/-- The sorted rows the aggregator renders. -/
def aggregateRows (fs : String → Option (List (List Field)))
    (cpu_peak_criteria ram_peak_criteria : ℚ) (default_machine_id : String)
    (filepaths : List String) : List AggregateRow :=
  (aggLoop fs cpu_peak_criteria ram_peak_criteria default_machine_id filepaths).1.mergeSort rowKeyLe

/-- `aggregate_summaries` as called from `main` (lines 1459-1469): the
warnings of skipped paths on stderr; on stdout either the single
no-valid-data message or the rendered table; `main` returns normally in
both cases, so the completion status is 0. -/
def aggregate_summaries (strf : ℚ → String)
    (fs : String → Option (List (List Field)))
    (cpu_peak_criteria ram_peak_criteria : ℚ) (default_machine_id : String)
    (filepaths : List String) : RunOutput :=
  let p := aggLoop fs cpu_peak_criteria ram_peak_criteria default_machine_id filepaths
  if p.1.isEmpty then
    ⟨0, ["No valid data loaded for aggregation."], p.2⟩
  else
    ⟨0,
     ["\n=== Aggregated Summary Report ===", aggHeaderLine,
      "| :--- | :--- | :--- | ---: | ---: | ---: | ---: | :--- |"] ++
       (p.1.mergeSort rowKeyLe).map (renderAggRow strf) ++ [""],
     p.2⟩

/-! ### Single-run analysis invocation (`main`, lines 1440-1457) -/

/-- The stderr diagnostic `load_data` prints for each failure mode. -/
def load_error_message (path : String) : LoadError → String
  | .fileNotFound => "Error: File not found: " ++ path
  | .emptyFile => "Error: Empty file"
  | .noValidData => "Error: No valid data found in file."

/-- The `--parse-file … --summary` path of `main`: percentages are divided
by 100, a load failure exits with status 1 after the loader's diagnostic,
success prints the summary report and completes with status 0. -/
def single_run (strf : ℚ → String) (fs : String → Option (List (List Field)))
    (path : String) (cpu_peak_percentage ram_peak_percentage : ℚ) : RunOutput :=
  let cpu_peak_ratio := cpu_peak_percentage / 100
  let ram_peak_ratio := ram_peak_percentage / 100
  match load_data cpu_peak_ratio ram_peak_ratio (fs path) with
  | .error e => ⟨1, [], [load_error_message path e]⟩
  | .ok a => ⟨0, show_summary_lines strf cpu_peak_ratio ram_peak_ratio a, []⟩

/-! ### Concrete inputs for the scenario checks -/

/-- A field whose text is a well-formed ISO timestamp at absolute second
`t` (so `float()` on it raises). -/
def tsF (t : ℚ) : Field := ⟨some t, none⟩

/-- A field whose text is a plain decimal number `x` (so
`datetime.fromisoformat` on it raises). -/
def numF (x : ℚ) : Field := ⟨none, some x⟩

/-- A field whose text parses as neither a timestamp nor a float, such as
the header words `Timestamp`, `CPU_Usage_%`, `Memory_MB`. -/
def txtF : Field := ⟨none, none⟩

/-- The header row `Timestamp, CPU_Usage_%, Memory_MB`. -/
def hdrRow : List Field := [txtF, txtF, txtF]

/-- Scenario A: five rows one minute apart with CPU values
`[5.5, 12.3, 8.0, 95.0, 6.0]` and memory values
`[2048.00, 2000.50, 1950.25, 1800.00, 2100.00]`. -/
def scenarioAFile : List (List Field) :=
  [hdrRow,
   [tsF 0, numF (11/2), numF 2048],
   [tsF 60, numF (123/10), numF (4001/2)],
   [tsF 120, numF 8, numF (7801/4)],
   [tsF 180, numF 95, numF 1800],
   [tsF 240, numF 6, numF 2100]]

/-- A log whose two data rows carry strictly decreasing timestamps
(second row one second before the first). -/
def decreasingFile : List (List Field) :=
  [hdrRow, [tsF 10, numF 1, numF 1], [tsF 9, numF 2, numF 2]]

/-- A log with a single data row whose CPU value is negative. -/
def negativeCpuFile : List (List Field) :=
  [hdrRow, [tsF 0, numF (-10), numF 100]]

/-- A filesystem holding scenario A under `a.csv` and nothing else. -/
def fsA (p : String) : Option (List (List Field)) :=
  if p = "a.csv" then some scenarioAFile else none

/-- A concrete stand-in for the strftime rendering used when evaluating the
report on concrete inputs: the floor of the absolute second count. -/
def strfC (t : ℚ) : String := toString ⌊t⌋

/-! ### Substring search (for stating what a report does not contain) -/

/-- `pat` occurs at the head of `s`. -/
def headMatch : List Char → List Char → Bool
  | [], _ => true
  | _ :: _, [] => false
  | p :: ps, c :: cs => p = c && headMatch ps cs

/-- `pat` occurs somewhere in `s`. -/
def containsChars (pat : List Char) : List Char → Bool
  | [] => headMatch pat []
  | c :: rest => headMatch pat (c :: rest) || containsChars pat rest

/-- The samples scenario A loads (times in seconds from the first row). -/
def scenarioASamples : List Sample :=
  [⟨0, 11/2, 2048⟩, ⟨60, 123/10, 4001/2⟩, ⟨120, 8, 7801/4⟩, ⟨180, 95, 1800⟩,
   ⟨240, 6, 2100⟩]

/-- The analyzer state scenario A produces with `cpu_peak_ratio = 0.5`,
`ram_peak_ratio = 0.3`. -/
def scenarioAAnalyzer : Analyzer := mkAnalyzer (1/2) (3/10) 0 scenarioASamples

/-- The analyzer state the decreasing-timestamp log produces. -/
def decreasingAnalyzer : Analyzer := mkAnalyzer (9/10) (1/2) 10 [⟨0, 1, 1⟩, ⟨-1, 2, 2⟩]

end Jastm

/-! The Batteries rational-number operations are sealed against unfolding;
reopening them lets concrete runs of the model be settled by `decide`. -/

section
set_option allowUnsafeReducibility true
attribute [semireducible] Rat.add Rat.mul Rat.sub Rat.inv Rat.ofScientific
end

deriving instance DecidableEq for Except

namespace Jastm

/-! ## Structural lemmas about the loader and the statistics engine -/

/-- A sample lands in the CPU-peak list exactly when it is one of the
samples and its CPU value strictly exceeds the CPU threshold. -/
theorem detectPeaks_fst_mem (ct mt : ℚ) (l : List Sample) (s : Sample) :
    s ∈ (detectPeaks ct mt l).1 ↔ s ∈ l ∧ ct < s.cpu := by
  induction l with
  | nil => simp [detectPeaks]
  | cons x rest ih =>
    simp only [detectPeaks, List.mem_cons]
    by_cases hx : ct < x.cpu
    · simp [hx, ih]
      constructor
      · rintro (rfl | ⟨hs, hc⟩)
        · exact ⟨Or.inl rfl, hx⟩
        · exact ⟨Or.inr hs, hc⟩
      · rintro ⟨rfl | hs, hc⟩
        · exact Or.inl rfl
        · exact Or.inr ⟨hs, hc⟩
    · simp [hx, ih]
      intro hc heq
      subst heq
      exact absurd hc hx

/-- A sample lands in the memory-peak list exactly when it is one of the
samples and its available memory is strictly below the memory threshold. -/
theorem detectPeaks_snd_mem (ct mt : ℚ) (l : List Sample) (s : Sample) :
    s ∈ (detectPeaks ct mt l).2 ↔ s ∈ l ∧ s.mem < mt := by
  induction l with
  | nil => simp [detectPeaks]
  | cons x rest ih =>
    simp only [detectPeaks, List.mem_cons]
    by_cases hx : x.mem < mt
    · simp [hx, ih]
      constructor
      · rintro (rfl | ⟨hs, hc⟩)
        · exact ⟨Or.inl rfl, hx⟩
        · exact ⟨Or.inr hs, hc⟩
      · rintro ⟨rfl | hs, hc⟩
        · exact Or.inl rfl
        · exact Or.inr ⟨hs, hc⟩
    · simp [hx, ih]
      intro hc heq
      subst heq
      exact absurd hc hx

/-- The CPU-peak count is the number of samples above the CPU threshold. -/
theorem detectPeaks_fst_length (ct mt : ℚ) (l : List Sample) :
    (detectPeaks ct mt l).1.length = l.countP (fun s => decide (ct < s.cpu)) := by
  induction l with
  | nil => simp [detectPeaks]
  | cons x rest ih =>
    by_cases hx : ct < x.cpu <;>
      simp [detectPeaks, List.countP_cons, hx, ih]

/-- Inversion for the loader: a successful load is exactly a present file
with a nonempty header row and at least one parseable data row, the result
being the precomputed analyzer over the parsed samples. -/
theorem load_data_ok_iff (c r : ℚ) (file : Option (List (List Field))) (a : Analyzer) :
    load_data c r file = .ok a ↔
    ∃ hdr rows t0 samples, file = some (hdr :: rows) ∧ hdr ≠ [] ∧
      parseDataRows rows = some (t0, samples) ∧ a = mkAnalyzer c r t0 samples := by
  constructor
  · intro h
    match file with
    | none => simp [load_data] at h
    | some [] => simp [load_data] at h
    | some (hdr :: rows) =>
      by_cases he : hdr.isEmpty
      · simp [load_data, he] at h
      · match hp : parseDataRows rows with
        | none => simp [load_data, he, hp] at h
        | some (t0, samples) =>
          refine ⟨hdr, rows, t0, samples, rfl, ?_, hp, ?_⟩
          · simpa [List.isEmpty_iff] using he
          · simp [load_data, he, hp] at h
            exact h.symm
  · rintro ⟨hdr, rows, t0, samples, rfl, hne, hp, rfl⟩
    simp [load_data, List.isEmpty_iff, hne, hp]

/-- The row parse succeeds on some row iff at least one data row parses. -/
theorem parseDataRows_isSome_iff (rows : List (List Field)) :
    (parseDataRows rows).isSome ↔ ∃ row ∈ rows, (parseRow row).isSome := by
  induction rows with
  | nil => simp [parseDataRows]
  | cons row rest ih =>
    match hp : parseRow row with
    | none => simp [parseDataRows, hp, ih]
    | some (t0, c, m) => simp [parseDataRows, hp]

/-- A row that fails to parse is dropped with no effect on the rest of the
parse. -/
theorem parseDataRows_drop (bad : List Field) (hbad : parseRow bad = none) :
    ∀ pre post, parseDataRows (pre ++ bad :: post) = parseDataRows (pre ++ post) := by
  intro pre post
  induction pre with
  | nil => simp [parseDataRows, hbad]
  | cons p pre' ih =>
    match hp : parseRow p with
    | none => simp [parseDataRows, hp, ih]
    | some (t0, c, m) =>
      simp [parseDataRows, hp, List.filterMap_append, List.filterMap_cons, hbad]

/-- A successful parse retains at least the first parsed row. -/
theorem parseDataRows_ne_nil {rows : List (List Field)} {t0 : ℚ} {samples : List Sample}
    (h : parseDataRows rows = some (t0, samples)) : samples ≠ [] := by
  induction rows with
  | nil => simp [parseDataRows] at h
  | cons row rest ih =>
    match hp : parseRow row with
    | none => rw [parseDataRows, hp] at h; exact ih h
    | some (t, c, m) =>
      rw [parseDataRows, hp] at h
      simp at h
      rw [← h.2]
      simp

/-! ## Structural lemmas about the aggregator -/

/-- The aggregation loop keeps exactly the successfully loaded rows, in
input order. -/
theorem aggLoop_fst (fs : String → Option (List (List Field))) (c r : ℚ) (d : String) :
    ∀ paths, (aggLoop fs c r d paths).1 = paths.filterMap (rowOf fs c r d) := by
  intro paths
  induction paths with
  | nil => simp [aggLoop]
  | cons p rest ih =>
    match hp : rowOf fs c r d p with
    | none => simp [aggLoop, hp, List.filterMap_cons, ih]
    | some row => simp [aggLoop, hp, List.filterMap_cons, ih]

/-- The aggregation loop warns exactly about the paths that fail to load,
in input order. -/
theorem aggLoop_snd (fs : String → Option (List (List Field))) (c r : ℚ) (d : String) :
    ∀ paths, (aggLoop fs c r d paths).2 = paths.filterMap (fun p =>
      match rowOf fs c r d p with
      | none => some ("Warning: Skipping file due to load error: " ++ p)
      | some _ => none) := by
  intro paths
  induction paths with
  | nil => simp [aggLoop]
  | cons p rest ih =>
    match hp : rowOf fs c r d p with
    | none => simp [aggLoop, hp, List.filterMap_cons, ih]
    | some row => simp [aggLoop, hp, List.filterMap_cons, ih]

/-- Two sorted lists that are permutations of each other and whose members
cannot tie without being equal are the same list. -/
theorem sorted_perm_eq {α : Type} {le : α → α → Bool} :
    ∀ l₁ l₂ : List α, l₁.Perm l₂ →
      l₁.Pairwise (fun a b => le a b = true) →
      l₂.Pairwise (fun a b => le a b = true) →
      (∀ a b, a ∈ l₁ → b ∈ l₂ → le a b = true → le b a = true → a = b) →
      l₁ = l₂ := by
  intro l₁
  induction l₁ with
  | nil =>
    intro l₂ hp _ _ _
    exact (hp.symm.eq_nil).symm
  | cons a t₁ ih =>
    intro l₂ hp hs₁ hs₂ hanti
    match l₂ with
    | [] => exact absurd hp.eq_nil (by simp)
    | b :: t₂ =>
      have hab : a = b := by
        have haml₂ : a ∈ b :: t₂ := hp.mem_iff.1 (List.mem_cons_self a t₁)
        have hbml₁ : b ∈ a :: t₁ := hp.mem_iff.2 (List.mem_cons_self b t₂)
        rcases List.mem_cons.1 haml₂ with h | hat₂
        · exact h
        · rcases List.mem_cons.1 hbml₁ with h | hbt₁
          · exact h.symm
          · exact hanti a b (List.mem_cons_self a t₁) (List.mem_cons_self b t₂)
              (List.rel_of_pairwise_cons hs₁ hbt₁)
              (List.rel_of_pairwise_cons hs₂ hat₂)
      subst hab
      have htp : t₁.Perm t₂ := hp.cons_inv
      have : t₁ = t₂ := ih t₂ htp hs₁.of_cons hs₂.of_cons
        (fun x y hx hy => hanti x y (List.mem_cons_of_mem _ hx) (List.mem_cons_of_mem _ hy))
      rw [this]

/-- The row comparison is transitive. -/
theorem rowKeyLe_trans (x y z : AggregateRow) :
    rowKeyLe x y = true → rowKeyLe y z = true → rowKeyLe x z = true := by
  simp only [rowKeyLe, decide_eq_true_eq]
  exact le_trans

/-- The row comparison is total. -/
theorem rowKeyLe_total (x y : AggregateRow) :
    rowKeyLe x y = true ∨ rowKeyLe y x = true := by
  simp only [rowKeyLe, decide_eq_true_eq]
  exact le_total _ _

/-- Equal sort keys force equal source paths. -/
theorem rowKey_eq_source {x y : AggregateRow} (h : rowKey x = rowKey y) :
    x.source = y.source := by
  simpa [rowKey] using congrArg (fun z => (ofLex (ofLex z).2).2) h

/-- A produced aggregate row records its own source path. -/
theorem rowOf_source {fs : String → Option (List (List Field))} {c r : ℚ} {d p : String}
    {row : AggregateRow} (h : rowOf fs c r d p = some row) : row.source = p := by
  unfold rowOf at h
  match hl : load_data c r (fs p) with
  | .error e => rw [hl] at h; simp at h
  | .ok a => rw [hl] at h; simp at h; rw [← h]

end Jastm

namespace Jastm

/-! ## The claims -/

/-- C1: for every successfully loaded Series and threshold ratios, a sample
is reported as a CPU peak iff its cpu_percent strictly exceeds
`avg_cpu * (1 + cpu_peak_ratio)` and as a memory peak iff its
memory_available_mb is strictly below `avg_mem * (1 - mem_peak_ratio)`,
the averages being the arithmetic means over all samples; on the scenario-A
data with ratios 0.5 and 0.3 exactly one CPU peak (the 95.0 row) and no
memory peak is detected. -/
theorem C1_peak_characterization (c r : ℚ) (file : Option (List (List Field)))
    (a : Analyzer) (h : load_data c r file = .ok a) :
    (∀ s : Sample, s ∈ a.cpu_peaks ↔ s ∈ a.samples ∧ mean a.cpu_data * (1 + c) < s.cpu) ∧
    (∀ s : Sample, s ∈ a.memory_peaks ↔ s ∈ a.samples ∧ s.mem < mean a.memory_data * (1 - r)) ∧
    (load_data (1/2) (3/10) (some scenarioAFile)).map
        (fun b => (b.cpu_peaks, b.memory_peaks)) = .ok ([⟨180, 95, 1800⟩], []) := by
  obtain ⟨hdr, rows, t0, samples, -, -, -, rfl⟩ := (load_data_ok_iff c r file a).1 h
  refine ⟨?_, ?_, by decide⟩
  · intro s
    simpa [mkAnalyzer, Analyzer.cpu_data] using detectPeaks_fst_mem _ _ samples s
  · intro s
    simpa [mkAnalyzer, Analyzer.memory_data] using detectPeaks_snd_mem _ _ samples s

/-- C1, witnessed on the scenario-A log. -/
theorem C1_witness :
    load_data (1/2) (3/10) (some scenarioAFile) = .ok scenarioAAnalyzer ∧
    ((∀ s : Sample, s ∈ scenarioAAnalyzer.cpu_peaks ↔
        s ∈ scenarioAAnalyzer.samples ∧
          mean scenarioAAnalyzer.cpu_data * (1 + 1/2) < s.cpu) ∧
     (∀ s : Sample, s ∈ scenarioAAnalyzer.memory_peaks ↔
        s ∈ scenarioAAnalyzer.samples ∧
          s.mem < mean scenarioAAnalyzer.memory_data * (1 - 3/10)) ∧
     (load_data (1/2) (3/10) (some scenarioAFile)).map
        (fun b => (b.cpu_peaks, b.memory_peaks)) = .ok ([⟨180, 95, 1800⟩], [])) :=
  ⟨by decide,
   C1_peak_characterization (1/2) (3/10) (some scenarioAFile) scenarioAAnalyzer (by decide)⟩

/-- C2: the summary report printed for a successfully analyzed log contains
no memory-trend line at all — no line mentions `Memory Trend`, `MB/hour` or
`R^2` — exhibited on the scenario-A log at thresholds 50 and 30
(`show_summary` computes no regression). -/
theorem C2_no_memory_trend :
    (single_run strfC fsA "a.csv" 50 30).exitCode = 0 ∧
    (single_run strfC fsA "a.csv" 50 30).stdout.all
      (fun line => !(containsChars "Memory Trend".data line.data ||
                     containsChars "MB/hour".data line.data ||
                     containsChars "R^2".data line.data)) = true := by
  refine ⟨by decide, by decide⟩

/-- C3: the aggregate table's header row carries no `mem_slope` or
`mem_r_square` column and differs from the ten-column header the claim
states; the second stdout line of a concrete aggregation is that header. -/
theorem C3_no_slope_columns :
    (aggregate_summaries strfC fsA (1/2) (3/10) "0000" ["a.csv"]).stdout[1]?
      = some aggHeaderLine ∧
    containsChars "mem_slope".data aggHeaderLine.data = false ∧
    containsChars "mem_r_square".data aggHeaderLine.data = false ∧
    aggHeaderLine ≠ "| machine_id | start_time | duration(days and hours) | cpu_avg_% | cpu_peak_count | mem_avg | mem_peak_count | mem_slope | mem_r_square | flags |" := by
  refine ⟨by decide, by decide, by decide, by decide⟩

/-- C4: on the filename `node_5678_20231025_100000_monitor.csv` the
machine-id inference returns the caller-supplied default, not `5678`: the
underscores around `5678` are word characters, so the four-digit
word-boundary pattern has no match in the basename. -/
theorem C4_underscored_filename :
    infer_machine_id_from_path "node_5678_20231025_100000_monitor.csv" "0000" = "0000" ∧
    infer_machine_id_from_path "node_5678_20231025_100000_monitor.csv" "9999" = "9999" ∧
    (rowOf (fun _ => some scenarioAFile) (1/2) (3/10) "0000"
        "node_5678_20231025_100000_monitor.csv").map AggregateRow.machine_id
      = some "0000" := by
  refine ⟨by decide, by decide, by decide⟩

/-- C5 counterexample: a log whose two data rows carry decreasing
timestamps loads successfully with elapsed sequence `[0, -1]`, which is not
non-decreasing. -/
theorem C5_counterexample :
    load_data (9/10) (1/2) (some decreasingFile) = .ok decreasingAnalyzer ∧
    decreasingAnalyzer.samples ≠ [] ∧
    ¬ List.Chain' (· ≤ ·) decreasingAnalyzer.timestamps := by
  refine ⟨by decide, by decide, ?_⟩
  have ht : decreasingAnalyzer.timestamps = [0, -1] := by decide
  rw [ht]
  norm_num [List.chain'_cons]

/-- C5 (amended): every successfully loaded Series is non-empty, and a row
violating the parse rules is dropped without rejecting the series; the
retained rows keep the file's order, which need not be non-decreasing. -/
theorem C5_nonempty_and_drop (c r : ℚ) (file : Option (List (List Field)))
    (a : Analyzer) (h : load_data c r file = .ok a) :
    a.samples ≠ [] ∧
    ∀ hdr pre post bad, parseRow bad = none →
      load_data c r (some (hdr :: (pre ++ bad :: post))) =
        load_data c r (some (hdr :: (pre ++ post))) := by
  constructor
  · obtain ⟨hdr, rows, t0, samples, -, -, hp, rfl⟩ := (load_data_ok_iff c r file a).1 h
    simpa [mkAnalyzer] using parseDataRows_ne_nil hp
  · intro hdr pre post bad hbad
    by_cases he : hdr.isEmpty
    · simp [load_data, he]
    · simp [load_data, he, parseDataRows_drop bad hbad pre post]

/-- C5 (amended), witnessed on the scenario-A log. -/
theorem C5_witness :
    load_data (1/2) (3/10) (some scenarioAFile) = .ok scenarioAAnalyzer ∧
    (scenarioAAnalyzer.samples ≠ [] ∧
     ∀ hdr pre post bad, parseRow bad = none →
       load_data (1/2) (3/10) (some (hdr :: (pre ++ bad :: post))) =
         load_data (1/2) (3/10) (some (hdr :: (pre ++ post)))) :=
  ⟨by decide,
   C5_nonempty_and_drop (1/2) (3/10) (some scenarioAFile) scenarioAAnalyzer (by decide)⟩

/-- C6: loading fails only on total failure — the file is missing, the
header line is absent, or no data row parses — bad rows being skipped
silently; a header-only log fails with no-valid-data, and the single-run
invocation on it exits with status 1 and a non-empty diagnostic. -/
theorem C6_total_failure_only (c r cp rp : ℚ) (strf : ℚ → String)
    (file : Option (List (List Field))) (path : String) :
    ((∃ a, load_data c r file = .ok a) ↔
       ∃ hdr rows, file = some (hdr :: rows) ∧ hdr ≠ [] ∧
         ∃ row ∈ rows, (parseRow row).isSome) ∧
    load_data c r (some [hdrRow]) = .error .noValidData ∧
    ∀ fs : String → Option (List (List Field)), fs path = some [hdrRow] →
      (single_run strf fs path cp rp).exitCode = 1 ∧
      (single_run strf fs path cp rp).stderr = ["Error: No valid data found in file."] := by
  refine ⟨?_, ?_, ?_⟩
  · constructor
    · rintro ⟨a, ha⟩
      obtain ⟨hdr, rows, t0, samples, hf, hne, hp, -⟩ :=
        (load_data_ok_iff c r file a).1 ha
      exact ⟨hdr, rows, hf, hne, (parseDataRows_isSome_iff rows).1 (by simp [hp])⟩
    · rintro ⟨hdr, rows, rfl, hne, hex⟩
      obtain ⟨⟨t0, samples⟩, hp⟩ :=
        Option.isSome_iff_exists.1 ((parseDataRows_isSome_iff rows).2 hex)
      exact ⟨mkAnalyzer c r t0 samples,
        (load_data_ok_iff c r _ _).2 ⟨hdr, rows, t0, samples, rfl, hne, hp, rfl⟩⟩
  · simp [load_data, hdrRow, parseDataRows]
  · intro fs hfs
    have hload : load_data (cp / 100) (rp / 100) (fs path) = .error .noValidData := by
      rw [hfs]
      simp [load_data, hdrRow, parseDataRows]
    constructor <;> simp [single_run, hload, load_error_message]

/-- C6, witnessed on a header-only log. -/
theorem C6_witness :
    (single_run strfC (fun _ => some [hdrRow]) "empty.csv" 90 50).exitCode = 1 ∧
    (single_run strfC (fun _ => some [hdrRow]) "empty.csv" 90 50).stderr
      = ["Error: No valid data found in file."] :=
  (C6_total_failure_only (90/100) (50/100) 90 50 strfC none "empty.csv").2.2
    (fun _ => some [hdrRow]) rfl

/-- C7: the aggregator produces one row per successfully loaded log, warns
about each skipped one, never error-exits, and on zero successes prints
exactly the no-valid-data message. -/
theorem C7_skip_and_no_valid_data (strf : ℚ → String)
    (fs : String → Option (List (List Field))) (c r : ℚ) (d : String)
    (paths : List String) :
    (aggregateRows fs c r d paths).Perm (paths.filterMap (rowOf fs c r d)) ∧
    (aggregateRows fs c r d paths).length
      = paths.countP (fun p => (rowOf fs c r d p).isSome) ∧
    (aggregate_summaries strf fs c r d paths).stderr = paths.filterMap (fun p =>
      match rowOf fs c r d p with
      | none => some ("Warning: Skipping file due to load error: " ++ p)
      | some _ => none) ∧
    (aggregate_summaries strf fs c r d paths).exitCode = 0 ∧
    ((∀ p ∈ paths, rowOf fs c r d p = none) →
      (aggregate_summaries strf fs c r d paths).stdout
        = ["No valid data loaded for aggregation."]) := by
  have hlen : ∀ (l : List String) (f : String → Option AggregateRow),
      (l.filterMap f).length = l.countP (fun a => (f a).isSome) := by
    intro l f
    induction l with
    | nil => rfl
    | cons x t ih => cases h : f x <;> simp [List.filterMap_cons, h, List.countP_cons, ih]
  refine ⟨?_, ?_, ?_, ?_, ?_⟩
  · rw [aggregateRows, aggLoop_fst]
    exact List.mergeSort_perm _ _
  · rw [aggregateRows, (List.mergeSort_perm _ _).length_eq, aggLoop_fst, hlen]
  · by_cases h : (aggLoop fs c r d paths).1.isEmpty <;>
      simp [aggregate_summaries, h, aggLoop_snd]
  · by_cases h : (aggLoop fs c r d paths).1.isEmpty <;>
      simp [aggregate_summaries, h]
  · intro hall
    have hnil : (aggLoop fs c r d paths).1 = [] := by
      rw [aggLoop_fst]
      exact List.filterMap_eq_nil_iff.2 hall
    simp [aggregate_summaries, hnil]

/-- C7, witnessed on a batch whose only log is missing. -/
theorem C7_witness :
    (aggregate_summaries strfC (fun _ => none) (9/10) (1/2) "0000" ["x.csv"]).stdout
      = ["No valid data loaded for aggregation."] ∧
    (aggregate_summaries strfC (fun _ => none) (9/10) (1/2) "0000" ["x.csv"]).exitCode = 0 :=
  ⟨(C7_skip_and_no_valid_data strfC (fun _ => none) (9/10) (1/2) "0000" ["x.csv"]).2.2.2.2
     (by intro p hp; rfl),
   (C7_skip_and_no_valid_data strfC (fun _ => none) (9/10) (1/2) "0000" ["x.csv"]).2.2.2.1⟩

/-- C8 counterexample: with a single sample of CPU `-10` the average is
negative, so raising the ratio from 0 to 1/2 lowers the threshold and the
CPU peak count rises from 0 to 1. -/
theorem C8_counterexample :
    (0 : ℚ) ≤ 1/2 ∧
    (load_data 0 0 (some negativeCpuFile)).map (fun a => a.cpu_peaks.length) = .ok 0 ∧
    (load_data (1/2) 0 (some negativeCpuFile)).map (fun a => a.cpu_peaks.length) = .ok 1 := by
  decide

/-- C8 (amended): for a fixed successfully loaded Series whose average CPU
is nonnegative — which holds whenever the logged CPU values are
nonnegative — increasing the CPU peak ratio never increases the CPU peak
count. -/
theorem C8_monotone (c₁ c₂ r : ℚ) (file : Option (List (List Field))) (a₁ a₂ : Analyzer)
    (h₁ : load_data c₁ r file = .ok a₁) (h₂ : load_data c₂ r file = .ok a₂)
    (hc : c₁ ≤ c₂) (havg : 0 ≤ a₁.avg_cpu) :
    a₂.cpu_peaks.length ≤ a₁.cpu_peaks.length := by
  obtain ⟨hdr, rows, t0, samples, hf, -, hp, rfl⟩ := (load_data_ok_iff _ _ _ _).1 h₁
  obtain ⟨hdr', rows', t0', samples', hf', -, hp', rfl⟩ := (load_data_ok_iff _ _ _ _).1 h₂
  rw [hf] at hf'
  injection hf' with hf''
  injection hf'' with hh hr
  subst hr
  rw [hp] at hp'
  injection hp' with hp''
  have hs : samples = samples' := congrArg Prod.snd hp''
  subst hs
  have havg' : 0 ≤ mean (samples.map Sample.cpu) := by
    simpa [mkAnalyzer] using havg
  simp only [mkAnalyzer, detectPeaks_fst_length]
  refine List.countP_mono_left ?_
  intro s _ hcpu
  simp only [decide_eq_true_eq] at hcpu ⊢
  have hle : mean (samples.map Sample.cpu) * (1 + c₁) ≤
      mean (samples.map Sample.cpu) * (1 + c₂) := by
    apply mul_le_mul_of_nonneg_left _ havg'
    linarith
  linarith

/-- C8 (amended), witnessed on the scenario-A log at ratios 0 and 1/2. -/
theorem C8_witness :
    ((0 : ℚ) ≤ 1/2) ∧ (0 ≤ scenarioAAnalyzer.avg_cpu) ∧
    ((load_data (1/2) (3/10) (some scenarioAFile)).map
        (fun a => a.cpu_peaks.length) = .ok 1) ∧
    (mkAnalyzer (1/2) (3/10) 0 scenarioASamples).cpu_peaks.length ≤
      scenarioAAnalyzer.cpu_peaks.length :=
  ⟨by decide, by decide, by decide,
   C8_monotone 0 (1/2) (3/10) (some scenarioAFile)
     scenarioAAnalyzer (mkAnalyzer (1/2) (3/10) 0 scenarioASamples)
     (by decide) (by decide) (by decide) (by decide)⟩

/-- C9: the aggregate rows are sorted ascending by the key
(machine_id, start_time, source); the output is the same for any
permutation of the input path list; and aggregating one log twice yields
its row duplicated. -/
theorem C9_sorted_deterministic (fs : String → Option (List (List Field)))
    (c r : ℚ) (d : String) (paths paths' : List String)
    (hperm : paths.Perm paths') :
    (aggregateRows fs c r d paths).Pairwise (fun x y => rowKeyLe x y = true) ∧
    aggregateRows fs c r d paths = aggregateRows fs c r d paths' ∧
    (∀ p row, rowOf fs c r d p = some row →
      aggregateRows fs c r d [p, p] = [row, row]) := by
  have hsorted : ∀ q : List String,
      (aggregateRows fs c r d q).Pairwise (fun x y => rowKeyLe x y = true) := by
    intro q
    rw [aggregateRows, aggLoop_fst]
    exact List.sorted_mergeSort rowKeyLe_trans
      (fun a b => by rcases rowKeyLe_total a b with h | h <;> simp [h]) _
  have hdet : ∀ q : List String, ∀ x,
      x ∈ aggregateRows fs c r d q → rowOf fs c r d x.source = some x := by
    intro q x hx
    rw [aggregateRows, aggLoop_fst] at hx
    have hx' := (List.mergeSort_perm _ rowKeyLe).mem_iff.1 hx
    obtain ⟨p, -, hsome⟩ := List.mem_filterMap.1 hx'
    have := rowOf_source hsome
    rw [this]
    exact hsome
  refine ⟨hsorted paths, ?_, ?_⟩
  · have hpermrows : (aggregateRows fs c r d paths).Perm (aggregateRows fs c r d paths') := by
      rw [aggregateRows, aggregateRows, aggLoop_fst, aggLoop_fst]
      exact ((List.mergeSort_perm _ _).trans (hperm.filterMap _)).trans
        (List.mergeSort_perm _ _).symm
    refine sorted_perm_eq _ _ hpermrows (hsorted paths) (hsorted paths') ?_
    intro x y hx hy hxy hyx
    have hkey : rowKey x = rowKey y := by
      have h1 : rowKey x ≤ rowKey y := by simpa [rowKeyLe] using hxy
      have h2 : rowKey y ≤ rowKey x := by simpa [rowKeyLe] using hyx
      exact le_antisymm h1 h2
    have hsrc : x.source = y.source := rowKey_eq_source hkey
    have hx' := hdet paths x hx
    have hy' := hdet paths' y hy
    rw [hsrc] at hx'
    rw [hx'] at hy'
    exact Option.some.inj hy'
  · intro p row hrow
    have hrefl : rowKeyLe row row = true := by
      simp [rowKeyLe]
    rw [aggregateRows, aggLoop_fst]
    simp only [List.filterMap_cons, hrow, List.filterMap_nil]
    exact List.mergeSort_of_sorted (by simp [hrefl])

/-- C9, witnessed by swapping a two-path batch. -/
theorem C9_witness :
    aggregateRows fsA (1/2) (3/10) "0000" ["a.csv", "missing.csv"]
      = aggregateRows fsA (1/2) (3/10) "0000" ["missing.csv", "a.csv"] :=
  (C9_sorted_deterministic fsA (1/2) (3/10) "0000" ["a.csv", "missing.csv"]
    ["missing.csv", "a.csv"] (List.Perm.swap "missing.csv" "a.csv" [])).2.1

/-- C10: the first line of the file is consumed unconditionally as the
header — any nonempty first row yields the same result as the expected
header text — and on success the reference start time and every retained
sample come from the remaining lines only. -/
theorem C10_header_ignored (c r : ℚ) (hdr : List Field) (rows : List (List Field))
    (hne : hdr ≠ []) :
    load_data c r (some (hdr :: rows)) = load_data c r (some (hdrRow :: rows)) ∧
    ∀ a, load_data c r (some (hdr :: rows)) = .ok a →
      ∃ t0 samples, parseDataRows rows = some (t0, samples) ∧
        a.start_datetime = t0 ∧ a.samples = samples := by
  have hie : hdr.isEmpty = false := by simpa [List.isEmpty_iff] using hne
  constructor
  · simp [load_data, hie, hdrRow]
  · intro a ha
    obtain ⟨hdr', rows', t0, samples, hf, -, hp, rfl⟩ :=
      (load_data_ok_iff c r (some (hdr :: rows)) a).1 ha
    injection hf with hf'
    injection hf' with h1 h2
    subst h2
    exact ⟨t0, samples, hp, by simp [mkAnalyzer], by simp [mkAnalyzer]⟩

/-- C10, witnessed with a well-formed data row in place of the header: it
is silently excluded and the start time still comes from the second line. -/
theorem C10_witness :
    load_data (1/2) (3/10) (some ([tsF 999, numF 1, numF 1] :: scenarioAFile.tail))
      = load_data (1/2) (3/10) (some (hdrRow :: scenarioAFile.tail)) ∧
    ∀ a, load_data (1/2) (3/10)
        (some ([tsF 999, numF 1, numF 1] :: scenarioAFile.tail)) = .ok a →
      ∃ t0 samples, parseDataRows scenarioAFile.tail = some (t0, samples) ∧
        a.start_datetime = t0 ∧ a.samples = samples :=
  C10_header_ignored (1/2) (3/10) [tsF 999, numF 1, numF 1] scenarioAFile.tail (by decide)

end Jastm
